import Mathlib

/-!
# Verification of the Uranium settings-resolution core

Shallow embedding of the `ContainerStack` / `SettingPropertyProvider` /
`MeshFileHandler` parts of the Uranium framework, together with theorems
settling the specification claims about them.

The `ContainerStack` implementation file itself is not part of the source
tree (only its test suite is), so its operations are modelled from the
specification, cross-checked against `tests/Settings/TestContainerStack.py`.
`SettingPropertyProvider` and `MeshFileHandler` are translated directly from
their Python sources.
-/

set_option maxRecDepth 8000

namespace Uranium

/-- A metadata value: either a string or an integer (the tests use both,
e.g. `{"number": 1}` and `{"string": "foo"}`). -/
inductive MVal where
  | s (val : String)
  | n (val : Int)
deriving DecidableEq, Repr

/-- The wildcard filter value `"*"` used by `findContainer`. -/
def MVal.wildcard : MVal := MVal.s "*"

/-- The flavour of a non-stack container: `InstanceContainer` or
`DefinitionContainer` (the distinction matters to
`SettingPropertyProvider.setPropertyValue`, which refuses to write into a
`DefinitionContainer`). -/
inductive CKind where
  | instanceKind
  | definitionKind
deriving DecidableEq, Repr

/-- A container in the sense of `ContainerInterface`:

* `leaf id kind items md` is a plain container (an `InstanceContainer` or
  `DefinitionContainer`, or the `MockContainer` of the tests) whose
  `getProperty (key, propertyName)` is a lookup of `(key, propertyName)` in
  the association list `items`, and whose metadata is `md`;
* `stack id name md cs next` is a `ContainerStack` with owned containers
  `cs` (index 0 = highest priority) and optional chained `next` stack.

Property values are modelled as strings (the provider compares and caches
them through Python `str` anyway). -/
inductive Container where
  | leaf (id : String) (kind : CKind) (items : List ((String × String) × String))
      (md : List (String × MVal))
  | stack (id : String) (name : String) (md : List (String × MVal))
      (cs : List Container) (next : Option Container)
deriving Repr

/-- Lookup in a `(key, propertyName) ↦ value` association list. -/
def lookupItems (items : List ((String × String) × String)) (k p : String) :
    Option String :=
  match items with
  | [] => none
  | ((k', p'), v) :: rest =>
      if k' = k ∧ p' = p then some v else lookupItems rest k p

/-- Lookup in a `key ↦ metadata value` association list. -/
def lookupMd (md : List (String × MVal)) (k : String) : Option MVal :=
  match md with
  | [] => none
  | (k', v) :: rest => if k' = k then some v else lookupMd rest k

/-- Lookup in a `key ↦ string` association list. -/
def lookupStr (l : List (String × String)) (k : String) : Option String :=
  match l with
  | [] => none
  | (k', v) :: rest => if k' = k then some v else lookupStr rest k

mutual

/-- Structural (Python `is`-surrogate) equality test on containers. -/
def Container.beq : Container → Container → Bool
  | .leaf i k it md, .leaf i' k' it' md' =>
      i == i' && k == k' && it == it' && md == md'
  | .stack i nm md cs nx, .stack i' nm' md' cs' nx' =>
      i == i' && nm == nm' && md == md' && Container.beqList cs cs'
        && Container.beqOpt nx nx'
  | _, _ => false

/-- `Container.beq` lifted to lists of containers. -/
def Container.beqList : List Container → List Container → Bool
  | [], [] => true
  | c :: cs, c' :: cs' => Container.beq c c' && Container.beqList cs cs'
  | _, _ => false

/-- `Container.beq` lifted to optional containers. -/
def Container.beqOpt : Option Container → Option Container → Bool
  | none, none => true
  | some c, some c' => Container.beq c c'
  | _, _ => false

end

mutual

theorem Container.beq_refl : ∀ c : Container, Container.beq c c = true
  | .leaf i k it md => by simp [Container.beq]
  | .stack i nm md cs nx => by
      simp [Container.beq, Container.beqList_refl cs, Container.beqOpt_refl nx]

theorem Container.beqList_refl : ∀ cs : List Container,
    Container.beqList cs cs = true
  | [] => by simp [Container.beqList]
  | c :: cs => by
      simp [Container.beqList, Container.beq_refl c, Container.beqList_refl cs]

theorem Container.beqOpt_refl : ∀ nx : Option Container,
    Container.beqOpt nx nx = true
  | none => by simp [Container.beqOpt]
  | some c => by simp [Container.beqOpt, Container.beq_refl c]

end

/-- `ContainerInterface.getId`. -/
def Container.getId : Container → String
  | .leaf i _ _ _ => i
  | .stack i _ _ _ _ => i

/-- `ContainerInterface.getName`. -/
def Container.getName : Container → String
  | .leaf _ _ _ _ => "Fred"
  | .stack _ nm _ _ _ => nm

/-- `ContainerInterface.getMetaData`. -/
def Container.getMetaData : Container → List (String × MVal)
  | .leaf _ _ _ md => md
  | .stack _ _ md _ _ => md

/-- `ContainerStack.getContainers` (empty for non-stacks). -/
def Container.getContainers : Container → List Container
  | .leaf _ _ _ _ => []
  | .stack _ _ _ cs _ => cs

/-- `ContainerStack.getNextStack` (none for non-stacks). -/
def Container.getNextStack : Container → Option Container
  | .leaf _ _ _ _ => none
  | .stack _ _ _ _ nx => nx

/-- `isinstance(container, DefinitionContainer)`. -/
def Container.isDefinitionContainer : Container → Bool
  | .leaf _ .definitionKind _ _ => true
  | _ => false

/-- `a.orElseO f` is `a` when `a` is non-none and `f ()` otherwise: the
"first non-none result wins" combinator of the stack walk. -/
def orElseO (a : Option String) (f : Unit → Option String) : Option String :=
  match a with
  | some v => some v
  | none => f ()

@[simp] theorem orElseO_some (v : String) (f : Unit → Option String) :
    orElseO (some v) f = some v := rfl

@[simp] theorem orElseO_none (f : Unit → Option String) :
    orElseO none f = f () := rfl

mutual

/-- Modelled from the spec: `ContainerStack.getProperty` (the
`ContainerStack` source file is absent from the tree; its tests
`test_getValue` confirm this behaviour).  A stack walks its owned containers
in order and returns the first non-none result; if all owned containers
return none it delegates to the next stack when one is set, and returns none
otherwise.  A leaf container resolves `(key, propertyName)` against its own
items. -/
def Container.getProperty : Container → String → String → Option String
  | .leaf _ _ items _, k, p => lookupItems items k p
  | .stack _ _ _ cs nx, k, p =>
      orElseO (Container.walkContainers cs k p) fun _ =>
        match nx with
        | some n => Container.getProperty n k p
        | none => none

/-- The ordered walk over a stack's owned containers: first non-none result
of `getProperty` wins. -/
def Container.walkContainers : List Container → String → String → Option String
  | [], _, _ => none
  | c :: rest, k, p =>
      orElseO (Container.getProperty c k p) fun _ =>
        Container.walkContainers rest k p

end

/-- The flattened list of containers across the chain
`stack → stack.getNextStack() → …`, in chain order (this is the enumeration
that `SettingPropertyProvider` uses for its flattened stack levels).
Non-stack chain links contribute nothing. -/
def chainContainers : Container → List Container
  | .leaf _ _ _ _ => []
  | .stack _ _ _ cs nx =>
      cs ++ (match nx with
             | some n => chainContainers n
             | none => [])

/-- Every link of the `nextStack` chain is an actual stack. -/
def isStackChain : Container → Bool
  | .leaf _ _ _ _ => false
  | .stack _ _ _ _ none => true
  | .stack _ _ _ _ (some n) => isStackChain n

/-! ## ContainerStack mutation operations (modelled from the spec) -/

/-- The error kinds raised by stack mutation operations. -/
inductive StackError where
  | identityError
  | indexError
  | invalidOperation
deriving DecidableEq, Repr

/-- Outcome of a mutating stack operation: the optional error raised, and
the state of the stack after the call (unchanged whenever an error is
raised — the operations validate fully before mutating). -/
abbrev StackOpResult := Option StackError × Container

/-- Modelled from the spec: `ContainerStack.addContainer` (source file
absent from the tree).  Appends `c` at the end (lowest priority) of the
owned sequence, failing with an identity error when `c` is the stack
itself; on failure the stack is unchanged. -/
def ContainerStack.addContainer (s c : Container) : StackOpResult :=
  match s with
  | .leaf _ _ _ _ => (some .invalidOperation, s)
  | .stack i nm md cs nx =>
      if Container.beq c (.stack i nm md cs nx) then (some .identityError, s)
      else (none, .stack i nm md (cs ++ [c]) nx)

/-- Modelled from the spec: `ContainerStack.replaceContainer` (source file
absent from the tree).  Bounds-checked by `0 ≤ index < length`; an
out-of-range index fails with an index error, replacing the stack with
itself fails with an identity error; on failure the stack is unchanged. -/
def ContainerStack.replaceContainer (s : Container) (index : Nat)
    (c : Container) : StackOpResult :=
  match s with
  | .leaf _ _ _ _ => (some .invalidOperation, s)
  | .stack i nm md cs nx =>
      if index < cs.length then
        if Container.beq c (.stack i nm md cs nx) then (some .identityError, s)
        else (none, .stack i nm md (cs.set index c) nx)
      else (some .indexError, s)

/-- Modelled from the spec: `ContainerStack.setNextStack` (source file
absent from the tree).  Fails with an identity error when the argument is
the stack itself; on failure the stack is unchanged. -/
def ContainerStack.setNextStack (s c : Container) : StackOpResult :=
  match s with
  | .leaf _ _ _ _ => (some .invalidOperation, s)
  | .stack i nm md cs nx =>
      if Container.beq c (.stack i nm md cs nx) then (some .identityError, s)
      else (none, .stack i nm md cs (some c))

/-! ## findContainer (modelled from the spec) -/

/-- One filter entry matches a container's metadata when the key is present
and either the filter value is the wildcard `"*"` or the metadata value
equals the filter value exactly. -/
def matchesEntry (md : List (String × MVal)) (e : String × MVal) : Bool :=
  match lookupMd md e.1 with
  | none => false
  | some w => e.2 == MVal.wildcard || w == e.2

/-- A container matches a filter when all filter entries match its
metadata. -/
def matchesFilter (fil : List (String × MVal)) (c : Container) : Bool :=
  fil.all (matchesEntry c.getMetaData)

/-- Modelled from the spec: `ContainerStack.findContainer` (source file
absent from the tree; its tests `test_findContainer` confirm the
first-stack-order-match policy).  Returns the first container in stack
order whose metadata matches all filter entries (wildcard `"*"` matching
mere key presence), none if no container matches. -/
def ContainerStack.findContainer (s : Container) (fil : List (String × MVal)) :
    Option Container :=
  match s with
  | .leaf _ _ _ _ => none
  | .stack _ _ _ cs _ => cs.find? (matchesFilter fil)

/-! ## Serialization (modelled from the spec, at document granularity)

The INI text layer (configparser) is abstracted to a structured document:
a `[general]` section whose four keys may each independently be absent, and
an optional `[metadata]` section.  The `containers` value is the list of
referenced container ids, `none` meaning the key itself is absent and
`some []` meaning the key is present with an empty value. -/

/-- The `[general]` section of a serialized container stack; each field is
`none` when the corresponding key is absent from the document. -/
structure GeneralSection where
  name : Option String
  id : Option String
  version : Option Int
  containers : Option (List String)
deriving DecidableEq, Repr

/-- A serialized container stack document: the `[general]` section (absent
when `none`) and the optional `[metadata]` section. -/
structure StackDoc where
  general : Option GeneralSection
  metadata : Option (List (String × MVal))
deriving Repr

/-- The current container stack serialization format version. -/
def stackVersion : Int := 2

/-- The error kinds raised by `ContainerStack.deserialize`:
`invalidContainerStack` for structurally malformed documents,
`incorrectVersion` for a well-formed document of another version, and
`containerNotFound` when a referenced container id is not registered. -/
inductive DeserializeError where
  | invalidContainerStack
  | incorrectVersion
  | containerNotFound
deriving DecidableEq, Repr

/-- The external container registry: container ids mapped to registered
containers. -/
abbrev Registry := List (String × Container)

/-- Look a container up by id in the registry. -/
def findById (reg : Registry) (i : String) : Option Container :=
  match reg with
  | [] => none
  | (i', c) :: rest => if i' = i then some c else findById rest i

/-- Resolve a list of referenced container ids through the registry,
failing on the first id that is not registered. -/
def resolveIds (reg : Registry) : List String →
    Except DeserializeError (List Container)
  | [] => .ok []
  | i :: rest =>
      match findById reg i with
      | none => .error .containerNotFound
      | some c =>
          match resolveIds reg rest with
          | .ok cs => .ok (c :: cs)
          | .error e => .error e

/-- Modelled from the spec: `ContainerStack.serialize` (source file absent
from the tree).  Emits a `[general]` section holding the stack's name, id,
the current format version and the ordered list of owned container ids,
plus a `[metadata]` section holding the metadata.  Serializing a non-stack
yields the empty document. -/
def ContainerStack.serialize : Container → StackDoc
  | .leaf _ _ _ _ => { general := none, metadata := none }
  | .stack i nm md cs _ =>
      { general := some
          { name := some nm
            id := some i
            version := some stackVersion
            containers := some (cs.map Container.getId) }
        metadata := some md }

/-- Modelled from the spec: `ContainerStack.deserialize` (source file
absent from the tree).  Fails with `invalidContainerStack` when `[general]`
or its `name`/`id`/`version` key is absent, with `incorrectVersion` when the
version differs from the current one, and with `containerNotFound` when a
referenced container id is not registered; otherwise yields the deserialized
stack (with no next stack).  Where the spec and the test suite disagree —
`test_deserialize_missing_items` asserts that a missing `containers` key is
allowed — the test's behaviour is followed: an absent `containers` key, like
a present-but-empty one, yields zero containers. -/
def ContainerStack.deserialize (reg : Registry) (doc : StackDoc) :
    Except DeserializeError Container :=
  match doc.general with
  | none => .error .invalidContainerStack
  | some g =>
      match g.name, g.id, g.version with
      | some nm, some i, some ver =>
          if ver = stackVersion then
            match resolveIds reg (g.containers.getD []) with
            | .ok cs => .ok (.stack i nm (doc.metadata.getD []) cs none)
            | .error e => .error e
          else .error .incorrectVersion
      | _, _, _ => .error .invalidContainerStack

/-! ## SettingPropertyProvider (translated from
`UM/Settings/Models/SettingPropertyProvider.py`) -/

/-- The state of a `SettingPropertyProvider`: the resolved stack (if any),
the watched setting key, the watched property names, the cached property
values (`_property_values`, all Python `str`), the write index
(`_store_index`), the cached flattened stack levels (`_stack_levels`) and
the redundant-value pruning flag (`_remove_unused_value`). -/
structure Provider where
  stack : Option Container
  key : String
  watchedProperties : List String
  propertyValues : List (String × String)
  storeIndex : Nat
  stackLevels : List Nat
  removeUnusedValue : Bool

/-- Python `str` applied to a value that may be `None`. -/
def pyStr : Option String → String
  | none => "None"
  | some s => s

/-- Indices (offset by `index`) of the containers in `cs` whose
`getProperty (key, "value")` is not none — the inner loop of
`SettingPropertyProvider._updateStackLevels`. -/
def scanContainers (cs : List Container) (k : String) (index : Nat) :
    List Nat :=
  match cs with
  | [] => []
  | c :: rest =>
      (if (c.getProperty k "value").isSome then [index] else [])
        ++ scanContainers rest k (index + 1)

/-- The chain walk of `SettingPropertyProvider._updateStackLevels`: walk
`current_stack = stack, stack.getNextStack(), …`, recording the flattened
index of every container whose `getProperty (key, "value")` is not none. -/
def levelsGo : Container → String → Nat → List Nat
  | .leaf _ _ _ _, _, _ => []
  | .stack _ _ _ cs nx, k, index =>
      scanContainers cs k index
        ++ (match nx with
            | some n => levelsGo n k (index + cs.length)
            | none => [])

/-- `SettingPropertyProvider._updateStackLevels`: the flattened stack
levels at which the watched key holds a value. -/
def computeStackLevels (st : Container) (k : String) : List Nat :=
  levelsGo st k 0

/-- The `stackLevels` pyqtProperty: `-1` (a number, not a list) when no
stack is attached, the cached `_stack_levels` list otherwise. -/
def stackLevelsProp (p : Provider) : Sum Int (List Nat) :=
  match p.stack with
  | none => Sum.inl (-1)
  | some _ => Sum.inr p.stackLevels

/-- The `while current_stack` loop of
`SettingPropertyProvider.getPropertyValue`, translated faithfully —
including the defect that each iteration reloads
`self._stack.getNextStack()` (the next stack of the *primary* stack)
instead of `current_stack.getNextStack()`.  `fuel` bounds the iteration
count; a `none` result means the loop did not terminate within `fuel`
(every loop iteration past the first either exits or decreases the level
by the container count of the primary's next stack, so
`stackLevel + 2` fuel suffices for every terminating run).  `some none`
means the loop exited with no stack left, `some (some (cur, lvl))` that it
broke at stack `cur` with local index `lvl`. -/
def gpvLoop (primary : Container) :
    Nat → Option Container → Nat → Option (Option (Container × Nat))
  | 0, _, _ => none
  | _ + 1, none, _ => some none
  | fuel + 1, some cur, level =>
      let n := cur.getContainers.length
      if level ≥ n then gpvLoop primary fuel primary.getNextStack (level - n)
      else some (some (cur, level))

/-- `SettingPropertyProvider.getPropertyValue (property_name, stack_level)`
for a provider attached to `primary`, translated from the source (with its
chain-walk defect).  The outer `none` models non-termination of the Python
loop; `some none` models the `return None` paths (current stack exhausted,
or `IndexError` on the container lookup); `some (some v)` returns the
property value read from the located container. -/
def getPropertyValueCode (primary : Container) (key propName : String)
    (stackLevel : Nat) : Option (Option String) :=
  match gpvLoop primary (stackLevel + 2) (some primary) stackLevel with
  | none => none
  | some none => some none
  | some (some (cur, lvl)) =>
      match cur.getContainers.get? lvl with
      | none => some none
      | some c => some (c.getProperty key propName)

/-- The externally observable effect of a
`SettingPropertyProvider.setPropertyValue` call: nothing, an uncaught
`IndexError`/`KeyError`, divergence of the inner `getPropertyValue` loop, a
`removeFromContainer(store_index)` call, or a
`container.setProperty(key, propName, value)` call on the container at
`store_index`. -/
inductive WriteAction where
  | noop
  | raisedIndexError
  | raisedKeyError
  | diverged
  | removeFrom (storeIndex : Nat)
  | write (storeIndex : Nat) (key propName value : String)
deriving DecidableEq, Repr

/-- The redundant-value pruning loop of
`SettingPropertyProvider.setPropertyValue`: iterate over `_stack_levels`;
at the first index deeper than `_store_index`, read the value back through
`getPropertyValue` and remove the override at `_store_index` when that
value (as `str`) equals the value being written and the state at
`_store_index` is not the calculated state, otherwise stop looking.
`container` is the container at `_store_index`.  Returns `some action` when
the loop returns early, `none` when it falls through. -/
def pruneLoop (p : Provider) (st container : Container) (value : String) :
    List Nat → Option WriteAction
  | [] => none
  | index :: rest =>
      if index > p.storeIndex then
        match getPropertyValueCode st p.key "value" index with
        | none => some .diverged
        | some oldValue =>
            let keyState := pyStr (container.getProperty p.key "state")
            if pyStr oldValue = value ∧ keyState ≠ "InstanceState.Calculated"
            then some (.removeFrom p.storeIndex)
            else none
      else pruneLoop p st container value rest

/-- `SettingPropertyProvider.setPropertyValue (property_name,
property_value)`, translated from the source: returns without effect when
no stack or key is set, when the property is not watched, or when the
container at the write index is a `DefinitionContainer`; when writing
`"value"` with pruning enabled, runs the pruning loop; then skips the write
when the cached property value equals the value being written (and pruning
is enabled), and otherwise writes into the container at the write index. -/
def setPropertyValue (p : Provider) (propName value : String) : WriteAction :=
  match p.stack with
  | none => .noop
  | some st =>
      if p.key = "" then .noop
      else if propName ∉ p.watchedProperties then .noop
      else
        match st.getContainers.get? p.storeIndex with
        | none => .raisedIndexError
        | some container =>
            if container.isDefinitionContainer then .noop
            else
              match (if propName = "value" ∧ p.removeUnusedValue then
                       pruneLoop p st container value p.stackLevels
                     else none) with
              | some a => a
              | none =>
                  match lookupStr p.propertyValues propName with
                  | none => .raisedKeyError
                  | some cached =>
                      if cached = value ∧ p.removeUnusedValue then .noop
                      else .write p.storeIndex p.key propName value

/-! ## MeshFileHandler (translated from `UM/Mesh/MeshFileHandler.py`) -/

/-- A registered mesh reader or writer, abstracted to its
`getSupportedExtension()` result. -/
structure MeshHandlerEntry where
  extension : String
deriving DecidableEq, Repr

/-- A `MeshFileHandler` object, modelled as its Python attribute
dictionary: attribute names mapped to handler-entry lists.  Attribute
lookup of a name that was never assigned raises `AttributeError`. -/
structure MeshFileHandler where
  attrs : List (String × List MeshHandlerEntry)
deriving Repr

/-- Python attribute lookup on a `MeshFileHandler`. -/
def MeshFileHandler.lookupAttr (h : MeshFileHandler) (name : String) :
    Option (List MeshHandlerEntry) :=
  lookupEntries h.attrs name
where
  lookupEntries : List (String × List MeshHandlerEntry) → String →
      Option (List MeshHandlerEntry)
    | [], _ => none
    | (n, es) :: rest, nm => if n = nm then some es else lookupEntries rest nm

/-- Python attribute assignment on a `MeshFileHandler`. -/
def MeshFileHandler.setAttr (h : MeshFileHandler) (name : String)
    (es : List MeshHandlerEntry) : MeshFileHandler :=
  match h.lookupAttr name with
  | none => ⟨h.attrs ++ [(name, es)]⟩
  | some _ => ⟨h.attrs.map fun a => if a.1 = name then (name, es) else a⟩

/-- `MeshFileHandler.__init__`: assigns the `_mesh_readers` and
`_mesh_writers` attributes (and no other). -/
def MeshFileHandler.init : MeshFileHandler :=
  ⟨[("_mesh_readers", []), ("_mesh_writers", [])]⟩

/-- `MeshFileHandler.addWriter`: appends to `_mesh_writers`. -/
def MeshFileHandler.addWriter (h : MeshFileHandler) (w : MeshHandlerEntry) :
    MeshFileHandler :=
  h.setAttr "_mesh_writers" ((h.lookupAttr "_mesh_writers").getD [] ++ [w])

/-- `MeshFileHandler.addReader`: appends to `_mesh_readers`. -/
def MeshFileHandler.addReader (h : MeshFileHandler) (r : MeshHandlerEntry) :
    MeshFileHandler :=
  h.setAttr "_mesh_readers" ((h.lookupAttr "_mesh_readers").getD [] ++ [r])

/-- The Python `AttributeError` raised by reading a never-assigned
attribute. -/
inductive PyAttrError where
  | attributeError
deriving DecidableEq, Repr

/-- `MeshFileHandler.getSupportedFileTypesWrite`, translated from the
source: it iterates `self._mesh_writer` — an attribute that no code ever
assigns (`__init__` assigns `_mesh_writers`, plural) — so the attribute
lookup raises `AttributeError`. -/
def MeshFileHandler.getSupportedFileTypesWrite (h : MeshFileHandler) :
    Except PyAttrError (List String) :=
  match h.lookupAttr "_mesh_writer" with
  | none => .error .attributeError
  | some ws => .ok (ws.map MeshHandlerEntry.extension)

/-- `MeshFileHandler.getSupportedFileTypesRead`, translated from the
source: returns the registered readers' supported extensions in
registration order. -/
def MeshFileHandler.getSupportedFileTypesRead (h : MeshFileHandler) :
    Except PyAttrError (List String) :=
  match h.lookupAttr "_mesh_readers" with
  | none => .error .attributeError
  | some rs => .ok (rs.map MeshHandlerEntry.extension)

/-! ## Helper lemmas: the ordered container walk -/

theorem getProperty_stack (i nm : String) (md : List (String × MVal))
    (cs : List Container) (nx : Option Container) (k p : String) :
    (Container.stack i nm md cs nx).getProperty k p =
      orElseO (Container.walkContainers cs k p) fun _ =>
        match nx with
        | some n => n.getProperty k p
        | none => none := by
  cases nx <;> simp only [Container.getProperty]

theorem walkContainers_eq_none (cs : List Container) (k p : String)
    (h : ∀ c ∈ cs, c.getProperty k p = none) :
    Container.walkContainers cs k p = none := by
  induction cs with
  | nil => rfl
  | cons c rest ih =>
      simp only [Container.walkContainers]
      rw [h c (List.mem_cons_self c rest)]
      exact ih fun c' hc' => h c' (List.mem_cons_of_mem c hc')

theorem walkContainers_first (cs : List Container) (k p : String) :
    ∀ (i : Nat) (ci : Container) (v : String), cs.get? i = some ci →
      ci.getProperty k p = some v →
      (∀ j cj, j < i → cs.get? j = some cj → cj.getProperty k p = none) →
      Container.walkContainers cs k p = some v := by
  induction cs with
  | nil => intro i ci v h; simp at h
  | cons c rest ih =>
      intro i ci v hget hv hprev
      cases i with
      | zero =>
          simp only [List.get?] at hget
          cases hget
          simp only [Container.walkContainers]
          rw [hv]
          rfl
      | succ i' =>
          have hc : c.getProperty k p = none := hprev 0 c (Nat.succ_pos i') rfl
          simp only [Container.walkContainers]
          rw [hc]
          exact ih i' ci v (by simpa using hget) hv fun j cj hj hgj =>
            hprev (j + 1) cj (Nat.succ_lt_succ hj) (by simpa using hgj)

theorem getProperty_none_of_chain_none (k p : String) :
    ∀ st : Container, isStackChain st = true →
      (∀ c ∈ chainContainers st, c.getProperty k p = none) →
      st.getProperty k p = none
  | .leaf _ _ _ _, h, _ => by simp [isStackChain] at h
  | .stack _ _ _ cs none, _, hall => by
      simp only [Container.getProperty]
      rw [walkContainers_eq_none cs k p
        (fun c hc => hall c (by simpa [chainContainers] using hc))]
      rfl
  | .stack _ _ _ cs (some n), hchain, hall => by
      have hn : isStackChain n = true := by simpa [isStackChain] using hchain
      have hrec := getProperty_none_of_chain_none k p n hn fun c hc =>
        hall c (by simp [chainContainers]; exact Or.inr hc)
      have hw : Container.walkContainers cs k p = none :=
        walkContainers_eq_none cs k p fun c hc =>
          hall c (by simp [chainContainers]; exact Or.inl hc)
      simp only [Container.getProperty]
      rw [hw, hrec]
      rfl

/-- C1: for a `ContainerStack` with owned containers `cs` in order,
`getProperty (key, propertyName)` returns the first non-none result of the
owned containers' `getProperty` walking them in order; if every owned
container returns none (in particular when the stack is empty) and a next
stack is set, the result is the next stack's `getProperty`; and if no
container anywhere in the chain has the key, the result is none. -/
theorem claim_getProperty_override_order (i nm : String)
    (md : List (String × MVal)) (cs : List Container) (nx : Option Container)
    (k p : String) :
    (∀ (idx : Nat) (ci : Container) (v : String), cs.get? idx = some ci →
        ci.getProperty k p = some v →
        (∀ j cj, j < idx → cs.get? j = some cj → cj.getProperty k p = none) →
        (Container.stack i nm md cs nx).getProperty k p = some v)
    ∧ ((∀ c ∈ cs, c.getProperty k p = none) → ∀ n, nx = some n →
        (Container.stack i nm md cs nx).getProperty k p = n.getProperty k p)
    ∧ (isStackChain (Container.stack i nm md cs nx) = true →
        (∀ c ∈ chainContainers (Container.stack i nm md cs nx),
          c.getProperty k p = none) →
        (Container.stack i nm md cs nx).getProperty k p = none) := by
  refine ⟨?_, ?_, ?_⟩
  · intro idx ci v hget hv hprev
    rw [getProperty_stack, walkContainers_first cs k p idx ci v hget hv hprev]
    rfl
  · intro hall n hn
    subst hn
    rw [getProperty_stack, walkContainers_eq_none cs k p hall]
    rfl
  · exact getProperty_none_of_chain_none k p _

/-- Witness for C1: on a stack whose first container lacks the key `"foo"`
and whose second holds `"bar"` for it, the resolved property is the second
container's value, by the override-order theorem. -/
theorem claim_getProperty_override_order_witness :
    (Container.stack "s" "S" []
        [Container.leaf "c0" .instanceKind [(("boo", "value"), "baz")] [],
         Container.leaf "c1" .instanceKind [(("foo", "value"), "bar")] []]
        none).getProperty "foo" "value" = some "bar" := by
  refine (claim_getProperty_override_order "s" "S" []
      [Container.leaf "c0" .instanceKind [(("boo", "value"), "baz")] [],
       Container.leaf "c1" .instanceKind [(("foo", "value"), "bar")] []]
      none "foo" "value").1 1
      (Container.leaf "c1" .instanceKind [(("foo", "value"), "bar")] [])
      "bar" rfl rfl ?_
  intro j cj hj hget
  match j, hj with
  | 0, _ =>
      cases hget
      rfl

/-! ## Helper lemmas: filter matching and first-match search -/

/-- The specification-side reading of a filter match: every filter entry's
key is present in the metadata, and its value is either the wildcard `"*"`
or exactly the metadata value. -/
def MatchesFilterSpec (fil : List (String × MVal)) (c : Container) : Prop :=
  ∀ e ∈ fil, ∃ w, lookupMd c.getMetaData e.1 = some w ∧
    (e.2 = MVal.wildcard ∨ w = e.2)

theorem matchesEntry_iff (md : List (String × MVal)) (e : String × MVal) :
    matchesEntry md e = true ↔
      ∃ w, lookupMd md e.1 = some w ∧ (e.2 = MVal.wildcard ∨ w = e.2) := by
  cases h : lookupMd md e.1 with
  | none => simp [matchesEntry, h]
  | some w => simp [matchesEntry, h, Bool.or_eq_true, beq_iff_eq]

theorem matchesFilter_iff (fil : List (String × MVal)) (c : Container) :
    matchesFilter fil c = true ↔ MatchesFilterSpec fil c := by
  simp [matchesFilter, List.all_eq_true, matchesEntry_iff, MatchesFilterSpec]

theorem find?_of_first (pred : Container → Bool) (cs : List Container) :
    ∀ (idx : Nat) (c : Container), cs.get? idx = some c → pred c = true →
      (∀ j cj, j < idx → cs.get? j = some cj → pred cj = false) →
      cs.find? pred = some c := by
  induction cs with
  | nil => intro idx c h; simp at h
  | cons a rest ih =>
      intro idx c hget hp hprev
      cases idx with
      | zero =>
          simp only [List.get?] at hget
          cases hget
          exact List.find?_cons_of_pos rest hp
      | succ idx' =>
          have ha : pred a = false := hprev 0 a (Nat.succ_pos idx') rfl
          rw [List.find?_cons_of_neg rest (by simp [ha])]
          exact ih idx' c (by simpa using hget) hp fun j cj hj hgj =>
            hprev (j + 1) cj (Nat.succ_lt_succ hj) (by simpa using hgj)

/-- C4: for a `ContainerStack` and a filter containing the wildcard value
`"*"` for some metadata key, `findContainer (filter)` returns the first
container in stack order whose metadata matches every filter entry —
wildcard entries requiring mere key presence, non-wildcard entries exact
equality — and none when no container matches. -/
theorem claim_findContainer_wildcard (i nm : String) (md : List (String × MVal))
    (cs : List Container) (nx : Option Container) (fil : List (String × MVal))
    (k₀ : String) (_hw : (k₀, MVal.wildcard) ∈ fil) :
    (∀ (idx : Nat) (c : Container), cs.get? idx = some c →
        MatchesFilterSpec fil c →
        (∀ j cj, j < idx → cs.get? j = some cj → ¬ MatchesFilterSpec fil cj) →
        ContainerStack.findContainer (.stack i nm md cs nx) fil = some c)
    ∧ ((∀ c ∈ cs, ¬ MatchesFilterSpec fil c) →
        ContainerStack.findContainer (.stack i nm md cs nx) fil = none) := by
  constructor
  · intro idx c hget hm hprev
    simp only [ContainerStack.findContainer]
    refine find?_of_first _ cs idx c hget ((matchesFilter_iff fil c).mpr hm)
      fun j cj hj hgj => ?_
    cases hfc : matchesFilter fil cj
    · rfl
    · exact absurd ((matchesFilter_iff fil cj).mp hfc) (hprev j cj hj hgj)
  · intro hall
    simp only [ContainerStack.findContainer]
    rw [List.find?_eq_none]
    intro c hc hp
    exact hall c hc ((matchesFilter_iff fil c).mp hp)

/-- Witness for C4: the wildcard-number case of `test_findContainer` — with
containers `c{number:2}`, `b{number:1}`, `a{string:foo}` in stack order and
the filter `{number: "*"}`, the first container having the `number` key at
all (namely `c`) is returned. -/
theorem claim_findContainer_wildcard_witness :
    ContainerStack.findContainer
        (.stack "s" "S" []
          [Container.leaf "c" .instanceKind []
             [("id", MVal.s "c"), ("number", MVal.n 2)],
           Container.leaf "b" .instanceKind []
             [("id", MVal.s "b"), ("number", MVal.n 1)],
           Container.leaf "a" .instanceKind []
             [("id", MVal.s "a"), ("string", MVal.s "foo")]]
          none)
        [("number", MVal.wildcard)] =
      some (Container.leaf "c" .instanceKind []
        [("id", MVal.s "c"), ("number", MVal.n 2)]) := by
  refine (claim_findContainer_wildcard "s" "S" []
      [Container.leaf "c" .instanceKind []
         [("id", MVal.s "c"), ("number", MVal.n 2)],
       Container.leaf "b" .instanceKind []
         [("id", MVal.s "b"), ("number", MVal.n 1)],
       Container.leaf "a" .instanceKind []
         [("id", MVal.s "a"), ("string", MVal.s "foo")]]
      none [("number", MVal.wildcard)] "number" (by simp)).1 0 _ rfl ?_ ?_
  · intro e he
    simp only [List.mem_singleton] at he
    subst he
    exact ⟨MVal.n 2, by simp [Container.getMetaData, lookupMd], Or.inl rfl⟩
  · intro j cj hj _
    exact absurd hj (Nat.not_lt_zero j)

/-- C5: calling `addContainer`, `replaceContainer` (at any valid index), or
`setNextStack` on a stack with the stack itself as argument fails with an
identity error, and the stack state after the failed call — owned container
list and next stack included — is exactly the state before it. -/
theorem claim_self_reference_rejection (i nm : String) (md : List (String × MVal))
    (cs : List Container) (nx : Option Container) :
    ContainerStack.addContainer (.stack i nm md cs nx) (.stack i nm md cs nx)
        = (some .identityError, .stack i nm md cs nx)
    ∧ (∀ idx, idx < cs.length →
        ContainerStack.replaceContainer (.stack i nm md cs nx) idx
            (.stack i nm md cs nx)
          = (some .identityError, .stack i nm md cs nx))
    ∧ ContainerStack.setNextStack (.stack i nm md cs nx) (.stack i nm md cs nx)
        = (some .identityError, .stack i nm md cs nx) := by
  refine ⟨?_, ?_, ?_⟩
  · simp [ContainerStack.addContainer, Container.beq_refl]
  · intro idx hidx
    simp [ContainerStack.replaceContainer, hidx, Container.beq_refl]
  · simp [ContainerStack.setNextStack, Container.beq_refl]

/-- Witness for C5: replacing the single container of a concrete stack by
the stack itself fails with the identity error and leaves the stack
unchanged. -/
theorem claim_self_reference_rejection_witness :
    ContainerStack.replaceContainer
        (.stack "s" "S" [] [Container.leaf "c0" .instanceKind [] []] none) 0
        (.stack "s" "S" [] [Container.leaf "c0" .instanceKind [] []] none)
      = (some .identityError,
         .stack "s" "S" [] [Container.leaf "c0" .instanceKind [] []] none) :=
  (claim_self_reference_rejection "s" "S" []
    [Container.leaf "c0" .instanceKind [] []] none).2.1 0 (by simp)

/-! ## Helper lemmas: id resolution through the registry -/

theorem resolveIds_of_registered (reg : Registry) (cs : List Container)
    (h : ∀ c ∈ cs, findById reg c.getId = some c) :
    resolveIds reg (cs.map Container.getId) = .ok cs := by
  induction cs with
  | nil => rfl
  | cons c rest ih =>
      simp only [List.map_cons, resolveIds]
      rw [h c (List.mem_cons_self c rest)]
      rw [ih fun c' hc' => h c' (List.mem_cons_of_mem c hc')]

theorem resolveIds_of_unregistered (reg : Registry) (cs : List Container)
    (h : ∃ c ∈ cs, findById reg c.getId = none) :
    resolveIds reg (cs.map Container.getId) = .error .containerNotFound := by
  induction cs with
  | nil => obtain ⟨c, hc, _⟩ := h; simp at hc
  | cons c rest ih =>
      simp only [List.map_cons, resolveIds]
      cases hfind : findById reg c.getId with
      | none => rfl
      | some c' =>
          obtain ⟨cw, hcw, hcwn⟩ := h
          rcases List.mem_cons.mp hcw with hhead | htail
          · subst hhead; rw [hfind] at hcwn; cases hcwn
          · rw [ih ⟨cw, htail, hcwn⟩]

/-- C2: for any stack state (any name, metadata and container list —
covering empty, single, duplicate and mixed-type container lists and
arbitrary names) whose containers are all registered under their ids,
deserializing the result of `serialize` reproduces the same name, metadata
and resolved container list; and when some owned container is not
registered, serializing and then deserializing fails with a lookup error
instead of silently dropping the container. -/
theorem claim_serialize_roundtrip (i nm : String) (md : List (String × MVal))
    (cs : List Container) (nx : Option Container) (reg : Registry) :
    ((∀ c ∈ cs, findById reg c.getId = some c) →
        ContainerStack.deserialize reg
            (ContainerStack.serialize (.stack i nm md cs nx))
          = .ok (.stack i nm md cs none))
    ∧ ((∃ c ∈ cs, findById reg c.getId = none) →
        ContainerStack.deserialize reg
            (ContainerStack.serialize (.stack i nm md cs nx))
          = .error .containerNotFound) := by
  constructor
  · intro hreg
    simp only [ContainerStack.serialize, ContainerStack.deserialize,
      Option.getD_some]
    rw [resolveIds_of_registered reg cs hreg]
    simp
  · intro hmiss
    simp only [ContainerStack.serialize, ContainerStack.deserialize,
      Option.getD_some]
    rw [resolveIds_of_unregistered reg cs hmiss]
    simp

/-- Witness for C2: a stack with a duplicated registered container and
metadata round-trips to the same name, metadata and container list; a stack
holding an unregistered container serializes but fails to deserialize with
the lookup error. -/
theorem claim_serialize_roundtrip_witness :
    (ContainerStack.deserialize
        [("a", Container.leaf "a" .instanceKind [] [])]
        (ContainerStack.serialize
          (.stack "testid" "=,\""
            [("foo", MVal.s "bar")]
            [Container.leaf "a" .instanceKind [] [],
             Container.leaf "a" .instanceKind [] []]
            none))
      = .ok (.stack "testid" "=,\""
          [("foo", MVal.s "bar")]
          [Container.leaf "a" .instanceKind [] [],
           Container.leaf "a" .instanceKind [] []]
          none))
    ∧ (ContainerStack.deserialize
        [("a", Container.leaf "a" .instanceKind [] [])]
        (ContainerStack.serialize
          (.stack "testid" "Test" []
            [Container.leaf "b" .definitionKind [] []]
            none))
      = .error .containerNotFound) := by
  constructor
  · refine (claim_serialize_roundtrip "testid" "=,\"" [("foo", MVal.s "bar")]
      [Container.leaf "a" .instanceKind [] [],
       Container.leaf "a" .instanceKind [] []] none
      [("a", Container.leaf "a" .instanceKind [] [])]).1 ?_
    intro c hc
    rcases List.mem_cons.mp hc with h | h
    · subst h; rfl
    · rcases List.mem_cons.mp h with h' | h'
      · subst h'; rfl
      · simp at h'
  · exact (claim_serialize_roundtrip "testid" "Test" []
      [Container.leaf "b" .definitionKind [] []] none
      [("a", Container.leaf "a" .instanceKind [] [])]).2
      ⟨Container.leaf "b" .definitionKind [] [], List.mem_cons_self _ _, rfl⟩

/-- Counterexample for C3: per `test_deserialize_missing_items`
("Missing containers is allowed"), a stack document whose `[general]`
section has `name`, `id` and the current `version` but *no* `containers`
key deserializes successfully to a stack with zero containers — it does not
fail with a structural error as the claim states. -/
theorem claim_missing_containers_counterexample :
    ContainerStack.deserialize []
        { general := some
            { name := some "Test", id := some "testid",
              version := some stackVersion, containers := none },
          metadata := none }
      = .ok (.stack "testid" "Test" [] [] none) := rfl

/-- C3 (amended): deserializing a stack document fails with a structural
error when `[general]` is missing or when its `name`, `id` or `version` key
is absent; a missing `containers` key is *accepted* and yields zero
containers, exactly like a present-but-empty `containers` value. -/
theorem claim_missing_section_gate (doc : StackDoc) (reg : Registry) :
    (doc.general = none →
        ContainerStack.deserialize reg doc = .error .invalidContainerStack)
    ∧ (∀ g, doc.general = some g →
        (g.name = none ∨ g.id = none ∨ g.version = none) →
        ContainerStack.deserialize reg doc = .error .invalidContainerStack)
    ∧ (∀ g nm i, doc.general = some g → g.name = some nm → g.id = some i →
        g.version = some stackVersion →
        (g.containers = none ∨ g.containers = some []) →
        ContainerStack.deserialize reg doc
          = .ok (.stack i nm (doc.metadata.getD []) [] none)) := by
  refine ⟨?_, ?_, ?_⟩
  · intro h
    simp [ContainerStack.deserialize, h]
  · intro g hg hmiss
    simp only [ContainerStack.deserialize, hg]
    rcases hmiss with h | h | h
    · rw [h]
    · rw [h]
      cases g.name <;> cases g.version <;> rfl
    · rw [h]
      cases g.name <;> cases g.id <;> rfl
  · intro g nm i hg hnm hi hver hconts
    simp only [ContainerStack.deserialize, hg, hnm, hi, hver]
    rcases hconts with h | h <;> simp [h, resolveIds]

/-- Witness for C3 (amended): a document lacking only the `name` key fails
with the structural error, while a document with an empty `containers`
value deserializes to a stack with zero containers. -/
theorem claim_missing_section_gate_witness :
    (ContainerStack.deserialize []
        { general := some
            { name := none, id := some "testid",
              version := some stackVersion, containers := some ["a"] },
          metadata := none }
      = .error .invalidContainerStack)
    ∧ (ContainerStack.deserialize []
        { general := some
            { name := some "Test", id := some "testid",
              version := some stackVersion, containers := some [] },
          metadata := none }
      = .ok (.stack "testid" "Test" [] [] none)) := by
  constructor
  · exact (claim_missing_section_gate
      { general := some
          { name := none, id := some "testid",
            version := some stackVersion, containers := some ["a"] },
        metadata := none } []).2.1 _ rfl (Or.inl rfl)
  · exact (claim_missing_section_gate
      { general := some
          { name := some "Test", id := some "testid",
            version := some stackVersion, containers := some [] },
        metadata := none } []).2.2 _ "Test" "testid" rfl rfl rfl rfl
      (Or.inr rfl)

/-! ## The getPropertyValue chain-walk defect -/

/-- The container of the primary stack in the three-stack chain below. -/
def bugC0 : Container := .leaf "c0" .instanceKind [(("k", "value"), "v0")] []

/-- The container of the middle stack in the three-stack chain below. -/
def bugC1 : Container := .leaf "c1" .instanceKind [(("k", "value"), "v1")] []

/-- The container of the last stack in the three-stack chain below. -/
def bugC2 : Container := .leaf "c2" .instanceKind [(("k", "value"), "v2")] []

/-- The last stack of the chain. -/
def bugS2 : Container := .stack "s2" "S2" [] [bugC2] none

/-- The middle stack of the chain, whose next stack is `bugS2`. -/
def bugS1 : Container := .stack "s1" "S1" [] [bugC1] (some bugS2)

/-- The primary stack of the chain, whose next stack is `bugS1`. -/
def bugS0 : Container := .stack "s0" "S0" [] [bugC0] (some bugS1)

/-- C6: on the three-stack chain `bugS0 → bugS1 → bugS2` with one container
each, the flattened chain index 2 denotes `bugC2` (whose value is `"v2"`),
yet `getPropertyValue ("value", 2)` returns `bugC1`'s value `"v1"`: the
loop reloads `self._stack.getNextStack()` instead of
`current_stack.getNextStack()`, so it never reaches the third stack.
Moreover `stackLevel = 3` equals the total container count of the chain,
where the claim requires a none result with a logged warning, yet the code
again returns `bugC1`'s value. -/
theorem claim_getPropertyValue_flattened_index :
    getPropertyValueCode bugS0 "k" "value" 2 = some (some "v1")
    ∧ (chainContainers bugS0).get? 2 = some bugC2
    ∧ Container.getProperty bugC2 "k" "value" = some "v2"
    ∧ (chainContainers bugS0).length = 3
    ∧ getPropertyValueCode bugS0 "k" "value" 3 = some (some "v1") :=
  ⟨rfl, rfl, rfl, rfl, rfl⟩

/-- C8: `setPropertyValue` mutates nothing — it returns the no-op action —
when the provider has no stack or no key set, when the property is not
watched, or when the container at the write index is a
`DefinitionContainer`. -/
theorem claim_setPropertyValue_guards (p : Provider) (pn v : String) :
    (p.stack = none → setPropertyValue p pn v = .noop)
    ∧ (p.key = "" → setPropertyValue p pn v = .noop)
    ∧ (pn ∉ p.watchedProperties → setPropertyValue p pn v = .noop)
    ∧ (∀ st container, p.stack = some st →
        st.getContainers.get? p.storeIndex = some container →
        container.isDefinitionContainer = true →
        setPropertyValue p pn v = .noop) := by
  refine ⟨?_, ?_, ?_, ?_⟩
  · intro h
    simp [setPropertyValue, h]
  · intro h
    cases hs : p.stack with
    | none => simp [setPropertyValue, hs]
    | some st => simp [setPropertyValue, hs, h]
  · intro h
    cases hs : p.stack with
    | none => simp [setPropertyValue, hs]
    | some st =>
        by_cases hk : p.key = ""
        · simp [setPropertyValue, hs, hk]
        · simp [setPropertyValue, hs, hk, h]
  · intro st container hs hc hdef
    by_cases hk : p.key = ""
    · simp [setPropertyValue, hs, hk]
    · by_cases hw : pn ∈ p.watchedProperties
      · simp only [setPropertyValue, hs]
        rw [if_neg hk, if_neg (fun hn => hn hw)]
        rw [hc]
        simp [hdef]
      · simp [setPropertyValue, hs, hk, hw]

/-- Witness for C8: a detached provider ignores the write, and an attached
provider whose write-index container is a `DefinitionContainer` ignores it
too. -/
theorem claim_setPropertyValue_guards_witness :
    setPropertyValue
        { stack := none, key := "k", watchedProperties := ["value"],
          propertyValues := [], storeIndex := 0, stackLevels := [],
          removeUnusedValue := true } "value" "5" = .noop
    ∧ setPropertyValue
        { stack := some (.stack "s" "S" []
            [Container.leaf "d" .definitionKind [] []] none),
          key := "k", watchedProperties := ["value"],
          propertyValues := [], storeIndex := 0, stackLevels := [],
          removeUnusedValue := true } "value" "5" = .noop :=
  ⟨(claim_setPropertyValue_guards
      { stack := none, key := "k", watchedProperties := ["value"],
        propertyValues := [], storeIndex := 0, stackLevels := [],
        removeUnusedValue := true } "value" "5").1 rfl,
   (claim_setPropertyValue_guards
      { stack := some (.stack "s" "S" []
          [Container.leaf "d" .definitionKind [] []] none),
        key := "k", watchedProperties := ["value"],
        propertyValues := [], storeIndex := 0, stackLevels := [],
        removeUnusedValue := true } "value" "5").2.2.2
      (.stack "s" "S" [] [Container.leaf "d" .definitionKind [] []] none)
      (Container.leaf "d" .definitionKind [] []) rfl rfl rfl⟩

/-! ## MeshFileHandler: supported file types -/

theorem addWriter_attrs (rs ws : List MeshHandlerEntry) (w : MeshHandlerEntry) :
    MeshFileHandler.addWriter ⟨[("_mesh_readers", rs), ("_mesh_writers", ws)]⟩ w
      = ⟨[("_mesh_readers", rs), ("_mesh_writers", ws ++ [w])]⟩ := by
  simp [MeshFileHandler.addWriter, MeshFileHandler.setAttr,
    MeshFileHandler.lookupAttr, MeshFileHandler.lookupAttr.lookupEntries]

theorem addReader_attrs (rs ws : List MeshHandlerEntry) (r : MeshHandlerEntry) :
    MeshFileHandler.addReader ⟨[("_mesh_readers", rs), ("_mesh_writers", ws)]⟩ r
      = ⟨[("_mesh_readers", rs ++ [r]), ("_mesh_writers", ws)]⟩ := by
  simp [MeshFileHandler.addReader, MeshFileHandler.setAttr,
    MeshFileHandler.lookupAttr, MeshFileHandler.lookupAttr.lookupEntries]

theorem foldl_addWriter_attrs (ws : List MeshHandlerEntry) :
    ∀ rs0 ws0, ws.foldl MeshFileHandler.addWriter
        ⟨[("_mesh_readers", rs0), ("_mesh_writers", ws0)]⟩
      = ⟨[("_mesh_readers", rs0), ("_mesh_writers", ws0 ++ ws)]⟩ := by
  induction ws with
  | nil => intro rs0 ws0; simp
  | cons w rest ih =>
      intro rs0 ws0
      rw [List.foldl_cons, addWriter_attrs, ih]
      simp

theorem foldl_addReader_attrs (rs : List MeshHandlerEntry) :
    ∀ rs0 ws0, rs.foldl MeshFileHandler.addReader
        ⟨[("_mesh_readers", rs0), ("_mesh_writers", ws0)]⟩
      = ⟨[("_mesh_readers", rs0 ++ rs), ("_mesh_writers", ws0)]⟩ := by
  induction rs with
  | nil => intro rs0 ws0; simp
  | cons r rest ih =>
      intro rs0 ws0
      rw [List.foldl_cons, addReader_attrs, ih]
      simp

/-- C9: for a `MeshFileHandler` on which any writers have been registered
via `addWriter`, `getSupportedFileTypesWrite()` does not return their
extension list — it raises `AttributeError`, because the method iterates
the never-assigned attribute `_mesh_writer` while `__init__` and
`addWriter` only touch `_mesh_writers`.  The parenthetical part of the
claim holds: `getSupportedFileTypesRead()` returns the registered readers'
extension strings in registration order. -/
theorem claim_mesh_supported_file_types (ws rs : List MeshHandlerEntry) :
    MeshFileHandler.getSupportedFileTypesWrite
        (ws.foldl MeshFileHandler.addWriter MeshFileHandler.init)
      = .error .attributeError
    ∧ MeshFileHandler.getSupportedFileTypesRead
        (rs.foldl MeshFileHandler.addReader MeshFileHandler.init)
      = .ok (rs.map MeshHandlerEntry.extension) := by
  constructor
  · rw [show MeshFileHandler.init
        = (⟨[("_mesh_readers", []), ("_mesh_writers", [])]⟩ : MeshFileHandler)
      from rfl, foldl_addWriter_attrs ws [] []]
    simp [MeshFileHandler.getSupportedFileTypesWrite,
      MeshFileHandler.lookupAttr, MeshFileHandler.lookupAttr.lookupEntries]
  · rw [show MeshFileHandler.init
        = (⟨[("_mesh_readers", []), ("_mesh_writers", [])]⟩ : MeshFileHandler)
      from rfl, foldl_addReader_attrs rs [] []]
    simp [MeshFileHandler.getSupportedFileTypesRead,
      MeshFileHandler.lookupAttr, MeshFileHandler.lookupAttr.lookupEntries]

/-! ## Stack level computation -/

theorem scanContainers_mem (cs : List Container) (k : String) :
    ∀ idx i, i ∈ scanContainers cs k idx ↔
      ∃ j c, cs.get? j = some c ∧ (c.getProperty k "value").isSome
        ∧ i = idx + j := by
  induction cs with
  | nil => intro idx i; simp [scanContainers]
  | cons c rest ih =>
      intro idx i
      simp only [scanContainers, List.mem_append]
      constructor
      · rintro (h1 | h2)
        · by_cases hv : (c.getProperty k "value").isSome
          · rw [if_pos hv] at h1
            simp only [List.mem_singleton] at h1
            exact ⟨0, c, rfl, hv, by omega⟩
          · rw [if_neg hv] at h1
            simp at h1
        · obtain ⟨j, c', hg, hv, hi⟩ := (ih (idx + 1) i).mp h2
          exact ⟨j + 1, c', by simpa using hg, hv, by omega⟩
      · rintro ⟨j, c', hg, hv, hi⟩
        cases j with
        | zero =>
            left
            simp only [List.get?] at hg
            cases hg
            rw [if_pos hv]
            simp
            omega
        | succ j' =>
            right
            exact (ih (idx + 1) i).mpr ⟨j', c', by simpa using hg, hv, by omega⟩

theorem scanContainers_bounds (cs : List Container) (k : String) (idx i : Nat)
    (hi : i ∈ scanContainers cs k idx) : idx ≤ i ∧ i < idx + cs.length := by
  obtain ⟨j, c, hg, -, hij⟩ := (scanContainers_mem cs k idx i).mp hi
  obtain ⟨hj, -⟩ := List.get?_eq_some.mp hg
  omega

theorem scanContainers_pairwise (cs : List Container) (k : String) :
    ∀ idx, (scanContainers cs k idx).Pairwise (· < ·) := by
  induction cs with
  | nil => intro idx; simp [scanContainers]
  | cons c rest ih =>
      intro idx
      simp only [scanContainers]
      by_cases hv : (c.getProperty k "value").isSome
      · rw [if_pos hv]
        simp only [List.singleton_append, List.pairwise_cons]
        refine ⟨fun b hb => ?_, ih (idx + 1)⟩
        have := (scanContainers_bounds rest k (idx + 1) b hb).1
        omega
      · rw [if_neg hv]
        simpa using ih (idx + 1)

theorem levelsGo_mem (k : String) :
    ∀ (st : Container) (idx i : Nat), i ∈ levelsGo st k idx ↔
      ∃ j c, (chainContainers st).get? j = some c
        ∧ (c.getProperty k "value").isSome ∧ i = idx + j
  | .leaf _ _ _ _, idx, i => by simp [levelsGo, chainContainers]
  | .stack _ _ _ cs none, idx, i => by
      simp only [levelsGo, chainContainers, List.append_nil]
      exact scanContainers_mem cs k idx i
  | .stack _ _ _ cs (some n), idx, i => by
      simp only [levelsGo, chainContainers, List.mem_append]
      rw [scanContainers_mem cs k idx i, levelsGo_mem k n (idx + cs.length) i]
      constructor
      · rintro (⟨j, c, hg, hv, hi⟩ | ⟨j, c, hg, hv, hi⟩)
        · refine ⟨j, c, ?_, hv, hi⟩
          obtain ⟨hj, -⟩ := List.get?_eq_some.mp hg
          rw [List.get?_append hj]
          exact hg
        · refine ⟨cs.length + j, c, ?_, hv, by omega⟩
          rw [List.get?_append_right (by omega)]
          simpa using hg
      · rintro ⟨j, c, hg, hv, hi⟩
        by_cases hj : j < cs.length
        · exact Or.inl ⟨j, c, by rwa [List.get?_append hj] at hg, hv, hi⟩
        · refine Or.inr ⟨j - cs.length, c, ?_, hv, by omega⟩
          rwa [List.get?_append_right (by omega)] at hg

theorem levelsGo_lower (k : String) (st : Container) (idx i : Nat)
    (hi : i ∈ levelsGo st k idx) : idx ≤ i := by
  obtain ⟨j, -, -, -, hij⟩ := (levelsGo_mem k st idx i).mp hi
  omega

theorem levelsGo_pairwise (k : String) :
    ∀ (st : Container) (idx : Nat), (levelsGo st k idx).Pairwise (· < ·)
  | .leaf _ _ _ _, idx => by simp [levelsGo]
  | .stack _ _ _ cs none, idx => by
      simp only [levelsGo, List.append_nil]
      exact scanContainers_pairwise cs k idx
  | .stack _ _ _ cs (some n), idx => by
      simp only [levelsGo]
      rw [List.pairwise_append]
      refine ⟨scanContainers_pairwise cs k idx,
        levelsGo_pairwise k n (idx + cs.length), ?_⟩
      intro a ha b hb
      have h1 := (scanContainers_bounds cs k idx a ha).2
      have h2 := levelsGo_lower k n (idx + cs.length) b hb
      omega

/-- C10: `stackLevels` is `-1` (a number, not a list) when no stack is
attached; for an attached provider whose cached levels are in sync with
`_updateStackLevels`, it is exactly the list of flattened chain indices of
those containers whose `getProperty (key, "value")` is not none, in
ascending chain order. -/
theorem claim_stackLevels_characterization (p : Provider) :
    (p.stack = none → stackLevelsProp p = Sum.inl (-1))
    ∧ (∀ st, p.stack = some st →
        p.stackLevels = computeStackLevels st p.key →
        stackLevelsProp p = Sum.inr (computeStackLevels st p.key)
        ∧ (∀ i, i ∈ computeStackLevels st p.key ↔
            ∃ c, (chainContainers st).get? i = some c ∧
              (c.getProperty p.key "value").isSome)
        ∧ (computeStackLevels st p.key).Pairwise (· < ·)) := by
  constructor
  · intro h
    simp [stackLevelsProp, h]
  · intro st hs hl
    refine ⟨by simp [stackLevelsProp, hs, hl], ?_,
      levelsGo_pairwise p.key st 0⟩
    intro i
    rw [computeStackLevels, levelsGo_mem p.key st 0 i]
    constructor
    · rintro ⟨j, c, hg, hv, hi⟩
      exact ⟨c, by simpa [hi] using hg, hv⟩
    · rintro ⟨c, hg, hv⟩
      exact ⟨i, c, hg, hv, by omega⟩

/-- Witness for C10: on a two-stack chain holding the key in both the
primary stack's container and the next stack's container, the property
returns the computed flattened level list. -/
theorem claim_stackLevels_characterization_witness :
    stackLevelsProp
        { stack := some bugS1, key := "k", watchedProperties := ["value"],
          propertyValues := [], storeIndex := 0,
          stackLevels := computeStackLevels bugS1 "k",
          removeUnusedValue := true }
      = Sum.inr (computeStackLevels bugS1 "k") :=
  ((claim_stackLevels_characterization
      { stack := some bugS1, key := "k", watchedProperties := ["value"],
        propertyValues := [], storeIndex := 0,
        stackLevels := computeStackLevels bugS1 "k",
        removeUnusedValue := true }).2 bugS1 rfl rfl).1

/-! ## Provider write pruning -/

/-- The first element of `l` (in list order) that is strictly greater than
`s` — the level the pruning loop of `setPropertyValue` acts on. -/
def firstAbove (s : Nat) (l : List Nat) : Option Nat :=
  (l.filter fun i => s < i).head?

theorem pruneLoop_eq_firstAbove (p : Provider) (st container : Container)
    (value : String) :
    ∀ l : List Nat, pruneLoop p st container value l =
      match firstAbove p.storeIndex l with
      | none => none
      | some index =>
          match getPropertyValueCode st p.key "value" index with
          | none => some .diverged
          | some oldValue =>
              if pyStr oldValue = value ∧
                  pyStr (container.getProperty p.key "state")
                    ≠ "InstanceState.Calculated"
              then some (.removeFrom p.storeIndex)
              else none := by
  intro l
  induction l with
  | nil => rfl
  | cons i rest ih =>
      simp only [pruneLoop]
      by_cases hi : i > p.storeIndex
      · rw [if_pos hi]
        have hfa : firstAbove p.storeIndex (i :: rest) = some i := by
          simp [firstAbove, List.filter_cons_of_pos, hi]
        rw [hfa]
      · rw [if_neg hi]
        have hfa : firstAbove p.storeIndex (i :: rest)
            = firstAbove p.storeIndex rest := by
          simp only [firstAbove]
          rw [List.filter_cons_of_neg (by simpa using hi)]
        rw [hfa, ih]

theorem getPropertyValueCode_single (sid snm : String)
    (smd : List (String × MVal)) (cs : List Container) (k pn : String)
    (i : Nat) (ci : Container) (hc : cs.get? i = some ci) :
    getPropertyValueCode (.stack sid snm smd cs none) k pn i
      = some (ci.getProperty k pn) := by
  obtain ⟨hi, -⟩ := List.get?_eq_some.mp hc
  have hloop : gpvLoop (.stack sid snm smd cs none) (i + 2)
      (some (.stack sid snm smd cs none)) i
      = some (some (.stack sid snm smd cs none, i)) := by
    simp only [gpvLoop, Container.getContainers]
    rw [if_neg (by omega)]
  unfold getPropertyValueCode
  rw [hloop]
  simp only [Container.getContainers]
  rw [hc]

/-- C7 (amended): for an attached provider on a single (unchained) stack
with watched property `"value"`, pruning enabled and a non-definition
container at the write index, writing `v` walks the cached stack levels
deeper than the write index; at the first such level holding a value, if
that value equals `v` (as Python `str`) and the state at the write index is
not the calculated state, the override at the write index is removed
instead of storing `v`; if that first deeper value differs from `v`, `v` is
written into the container at the write index — unless the provider's
cached value of the property already equals `v`, in which case nothing is
written at all. -/
theorem claim_provider_write_pruning (p : Provider) (sid snm : String)
    (smd : List (String × MVal)) (cs : List Container) (v : String)
    (index : Nat) (ci container : Container) (oldv : String)
    (hstack : p.stack = some (.stack sid snm smd cs none))
    (hkey : p.key ≠ "")
    (hwatch : "value" ∈ p.watchedProperties)
    (hprune : p.removeUnusedValue = true)
    (hcont : cs.get? p.storeIndex = some container)
    (hnotdef : container.isDefinitionContainer = false)
    (hfirst : firstAbove p.storeIndex p.stackLevels = some index)
    (hidx : cs.get? index = some ci)
    (hval : ci.getProperty p.key "value" = some oldv) :
    (oldv = v →
      pyStr (container.getProperty p.key "state") ≠ "InstanceState.Calculated" →
      setPropertyValue p "value" v = .removeFrom p.storeIndex)
    ∧ (∀ cached, oldv ≠ v → lookupStr p.propertyValues "value" = some cached →
        cached ≠ v →
        setPropertyValue p "value" v = .write p.storeIndex p.key "value" v)
    ∧ (∀ cached, oldv ≠ v → lookupStr p.propertyValues "value" = some cached →
        cached = v → setPropertyValue p "value" v = .noop) := by
  have hread : getPropertyValueCode (.stack sid snm smd cs none) p.key "value"
      index = some (some oldv) := by
    rw [getPropertyValueCode_single sid snm smd cs p.key "value" index ci hidx,
      hval]
  have hpl : pruneLoop p (.stack sid snm smd cs none) container v p.stackLevels
      = (if oldv = v ∧ pyStr (container.getProperty p.key "state")
            ≠ "InstanceState.Calculated"
         then some (WriteAction.removeFrom p.storeIndex)
         else none) := by
    rw [pruneLoop_eq_firstAbove p (.stack sid snm smd cs none) container v
      p.stackLevels, hfirst]
    show (match getPropertyValueCode (Container.stack sid snm smd cs none)
            p.key "value" index with
          | none => some WriteAction.diverged
          | some oldValue =>
              if pyStr oldValue = v ∧
                  pyStr (container.getProperty p.key "state")
                    ≠ "InstanceState.Calculated"
              then some (WriteAction.removeFrom p.storeIndex)
              else none) = _
    rw [hread]
    simp [pyStr]
  have hred : setPropertyValue p "value" v =
      (if oldv = v ∧ pyStr (container.getProperty p.key "state")
            ≠ "InstanceState.Calculated"
       then WriteAction.removeFrom p.storeIndex
       else
         match lookupStr p.propertyValues "value" with
         | none => WriteAction.raisedKeyError
         | some cached =>
             if cached = v then WriteAction.noop
             else WriteAction.write p.storeIndex p.key "value" v) := by
    simp only [setPropertyValue, hstack]
    rw [if_neg hkey, if_neg (fun hn => hn hwatch)]
    simp only [Container.getContainers]
    rw [hcont]
    simp only [hnotdef, Bool.false_eq_true, if_false]
    rw [if_pos ⟨by trivial, hprune⟩, hpl]
    by_cases hcond : oldv = v ∧ pyStr (container.getProperty p.key "state")
        ≠ "InstanceState.Calculated"
    · simp [hcond]
    · simp only [if_neg hcond]
      cases hcch : lookupStr p.propertyValues "value" with
      | none => rfl
      | some cached =>
          by_cases hcv : cached = v
          · simp [hcv, hprune]
          · simp [hcv]
  refine ⟨?_, ?_, ?_⟩
  · intro hov hst
    rw [hred, if_pos ⟨hov, hst⟩]
  · intro cached hov hcached hcv
    rw [hred, if_neg (fun h => hov h.1), hcached]
    simp [hcv]
  · intro cached hov hcached hcv
    rw [hred, if_neg (fun h => hov h.1), hcached]
    simp [hcv]

/-- The top (user override) container of the concrete pruning scenarios:
holds value `"5"` in user state. -/
def pruneTop : Container :=
  .leaf "u" .instanceKind
    [(("k", "value"), "5"), (("k", "state"), "InstanceState.User")] []

/-- A deeper container holding the same value `"5"`. -/
def pruneDeepSame : Container :=
  .leaf "d" .instanceKind [(("k", "value"), "5")] []

/-- A deeper container holding the different value `"7"`. -/
def pruneDeepOther : Container :=
  .leaf "d" .instanceKind [(("k", "value"), "7")] []

/-- The single stack whose deeper level holds the same value. -/
def pruneStackSame : Container :=
  .stack "s" "S" [] [pruneTop, pruneDeepSame] none

/-- The single stack whose deeper level holds a different value. -/
def pruneStackOther : Container :=
  .stack "s" "S" [] [pruneTop, pruneDeepOther] none

/-- Counterexample for C7: with the first deeper level holding `"7"` while
`"5"` is being written (so the deeper value differs and the claim requires
the value to be written at the write index), the provider whose cached
effective value is already `"5"` writes nothing at all: the cached-value
guard of `setPropertyValue` fires before the write. -/
theorem claim_provider_write_pruning_counterexample :
    setPropertyValue
        { stack := some pruneStackOther, key := "k",
          watchedProperties := ["value"],
          propertyValues := [("value", "5")], storeIndex := 0,
          stackLevels := computeStackLevels pruneStackOther "k",
          removeUnusedValue := true }
        "value" "5" = WriteAction.noop
    ∧ computeStackLevels pruneStackOther "k" = [0, 1]
    ∧ Container.getProperty pruneDeepOther "k" "value" = some "7" :=
  ⟨rfl, rfl, rfl⟩

/-- Witness for C7 (amended): writing `"5"` while the first deeper level
also holds `"5"` and the write-index state is the user state removes the
override at the write index instead of storing the duplicate. -/
theorem claim_provider_write_pruning_witness :
    setPropertyValue
        { stack := some pruneStackSame, key := "k",
          watchedProperties := ["value"],
          propertyValues := [("value", "5")], storeIndex := 0,
          stackLevels := computeStackLevels pruneStackSame "k",
          removeUnusedValue := true }
        "value" "5" = WriteAction.removeFrom 0 :=
  (claim_provider_write_pruning
      { stack := some pruneStackSame, key := "k",
        watchedProperties := ["value"],
        propertyValues := [("value", "5")], storeIndex := 0,
        stackLevels := computeStackLevels pruneStackSame "k",
        removeUnusedValue := true }
      "s" "S" [] [pruneTop, pruneDeepSame] "5" 1 pruneDeepSame pruneTop "5"
      rfl (by decide) (by decide) rfl rfl rfl rfl rfl rfl).1 rfl (by decide)

end Uranium
